import Mathlib

/-!
Verification development for the visible parts of the `gsn-1` repository:

* `src/common/VersionsManager.ts` — a thin wrapper around the npm `semver`
  library giving a caret-range compatibility check;
* the configuration parser / resolver `ServerConfigParams` (only its test file
  is visible in the repository snapshot; the functions under test are
  modelled from the specification and constrained by the assertions of the
  visible test file).

All machine arithmetic is modelled with `Nat`/`Int`; JavaScript exceptions and
promise rejections are modelled with `Except String`.
-/

/-! ## Semantic versions (model of the npm `semver` library)

`VersionsManager.ts` delegates validity checking to `semver.valid` and range
checking to `semver.satisfies(version, range)` with the caret range
`range = caret componentVersion`.  The definitions below embed the
relevant fragment of that library: full-version parsing (the anchored
`FULL` regular expression, with its optional leading `v`, the 256-character
limit and the `MAX_SAFE_INTEGER` bound on numeric components), version
comparison (build metadata ignored, prerelease ordering), caret-range
desugaring, and the prerelease-exclusion rule of `Range.test`.
-/

/-- A prerelease identifier: all-digit identifiers below `MAX_SAFE_INTEGER`
are stored numerically (and compare numerically), the rest are stored as
strings (and compare lexicographically by character code). -/
inductive PreId where
  | num (n : Nat)
  | str (s : String)
deriving DecidableEq, Repr

/-- A parsed semantic version. `build` metadata is kept from parsing but is
ignored by every comparison, as in the `semver` library. -/
structure Semver where
  major : Nat
  minor : Nat
  patch : Nat
  prerelease : List PreId
  build : List String
deriving DecidableEq, Repr

/-- JavaScript `Number.MAX_SAFE_INTEGER`. -/
def maxSafeInteger : Nat := 9007199254740991

/-- Characters allowed in prerelease and build identifiers
(`[0-9A-Za-z-]`). -/
def isIdentChar (c : Char) : Bool := c.isDigit || c.isAlpha || c == '-'

/-- Numeric value of a digit string. -/
def digitsToNat (cs : List Char) : Nat :=
  cs.foldl (fun a c => a * 10 + (c.toNat - 48)) 0

/-- Parse one of the `major`/`minor`/`patch` components: a nonempty digit
string without leading zeros, bounded by `MAX_SAFE_INTEGER`. -/
def parseNumericId (cs : List Char) : Option Nat :=
  if cs.isEmpty then none
  else if !cs.all Char.isDigit then none
  else if cs.head? = some '0' && cs.length != 1 then none
  else
    let n := digitsToNat cs
    if n > maxSafeInteger then none else some n

/-- Parse one prerelease identifier (one chunk between dots): nonempty,
only `[0-9A-Za-z-]`; all-digit identifiers must have no leading zeros and
become numeric when below `MAX_SAFE_INTEGER`. -/
def parsePreId (cs : List Char) : Option PreId :=
  if cs.isEmpty || !cs.all isIdentChar then none
  else if cs.all Char.isDigit then
    if cs.head? = some '0' && cs.length != 1 then none
    else
      let n := digitsToNat cs
      if n < maxSafeInteger then some (.num n) else some (.str (String.mk cs))
  else some (.str (String.mk cs))

/-- Split a character list at the first occurrence of `sep`; the second
component is `none` when `sep` does not occur. -/
def splitFirst (sep : Char) : List Char → List Char × Option (List Char)
  | [] => ([], none)
  | c :: cs =>
    if c = sep then ([], some cs)
    else
      let r := splitFirst sep cs
      (c :: r.1, r.2)

/-- Parse the `major.minor.patch` core of a version. -/
def parseMMP (cs : List Char) : Option (Nat × Nat × Nat) :=
  match cs.splitOn '.' with
  | [a, b, c] => do
    let x ← parseNumericId a
    let y ← parseNumericId b
    let z ← parseNumericId c
    some (x, y, z)
  | _ => none

/-- Parse the (optional) dash-separated prerelease part. -/
def parsePre (part : Option (List Char)) : Option (List PreId) :=
  match part with
  | none => some []
  | some p => (p.splitOn '.').mapM parsePreId

/-- Parse the (optional) plus-separated build-metadata part. -/
def parseBuild (part : Option (List Char)) : Option (List String) :=
  match part with
  | none => some []
  | some b =>
    let ids := b.splitOn '.'
    if ids.all (fun i => !i.isEmpty && i.all isIdentChar) then
      some (ids.map String.mk)
    else none

/-- Model of `semver.parse` (and hence of `semver.valid`, which is `none`
exactly on the strings this returns `none` on): the anchored `FULL`
grammar `v? major . minor . patch ( - prerelease )? ( + build )?` with the
256-character limit. -/
def parseSemver (s : String) : Option Semver :=
  if s.length > 256 then none
  else
    let cs := match s.data with
      | 'v' :: rest => rest
      | other => other
    let (beforePlus, buildPart) := splitFirst '+' cs
    let (core, prePart) := splitFirst '-' beforePlus
    match parseMMP core, parsePre prePart, parseBuild buildPart with
    | some (x, y, z), some pre, some b =>
      some { major := x, minor := y, patch := z, prerelease := pre, build := b }
    | _, _, _ => none

/-- Three-way comparison on `Nat` (model of `compareIdentifiers` on
numbers). -/
def cmpNat (a b : Nat) : Ordering :=
  if a < b then .lt else if b < a then .gt else .eq

/-- Lexicographic character-code comparison of strings (JavaScript `<` on
strings, restricted to the identifier alphabet). -/
def cmpChars : List Char → List Char → Ordering
  | [], [] => .eq
  | [], _ :: _ => .lt
  | _ :: _, [] => .gt
  | a :: as, b :: bs =>
    match cmpNat a.toNat b.toNat with
    | .eq => cmpChars as bs
    | o => o

/-- Comparison of single prerelease identifiers: numeric identifiers sort
before string identifiers. -/
def cmpId : PreId → PreId → Ordering
  | .num n, .num m => cmpNat n m
  | .num _, .str _ => .lt
  | .str _, .num _ => .gt
  | .str s, .str t => cmpChars s.data t.data

/-- Elementwise comparison of nonempty prerelease identifier lists; a
proper prefix sorts first. -/
def cmpIds : List PreId → List PreId → Ordering
  | [], [] => .eq
  | [], _ :: _ => .lt
  | _ :: _, [] => .gt
  | a :: as, b :: bs =>
    match cmpId a b with
    | .eq => cmpIds as bs
    | o => o

/-- Prerelease-list comparison: a version without prerelease identifiers
sorts after any with them. -/
def cmpPre (a b : List PreId) : Ordering :=
  match a, b with
  | [], [] => .eq
  | [], _ :: _ => .gt
  | _ :: _, [] => .lt
  | _ :: _, _ :: _ => cmpIds a b

/-- Model of `semver.compare`: major, minor, patch, then prerelease; build
metadata is ignored. -/
def semverCmp (v w : Semver) : Ordering :=
  match cmpNat v.major w.major with
  | .eq =>
    match cmpNat v.minor w.minor with
    | .eq =>
      match cmpNat v.patch w.patch with
      | .eq => cmpPre v.prerelease w.prerelease
      | o => o
    | o => o
  | o => o

/-- Exclusive upper bound of the caret range anchored at `b`
(`replaceCaret` in the `semver` library): bump the leftmost nonzero of
major, minor, patch. -/
def caretUpper (b : Semver) : Semver :=
  if b.major > 0 then { major := b.major + 1, minor := 0, patch := 0, prerelease := [], build := [] }
  else if b.minor > 0 then { major := 0, minor := b.minor + 1, patch := 0, prerelease := [], build := [] }
  else { major := 0, minor := 0, patch := b.patch + 1, prerelease := [], build := [] }

/-- Model of `semver.satisfies v (caret base)`: `v` is within the
half-open interval `[base, caretUpper base)` and, when `v` has a
prerelease, the prerelease-exclusion rule of `Range.test` additionally
requires a comparator with a prerelease at the same `major.minor.patch`
triple — here only the lower bound `>= base` can provide one. -/
def satisfiesCaret (base v : Semver) : Bool :=
  (!decide (semverCmp v base = .lt)) &&
  decide (semverCmp v (caretUpper base) = .lt) &&
  (decide (v.prerelease = []) ||
    (!decide (base.prerelease = []) &&
      decide (v.major = base.major) && decide (v.minor = base.minor) &&
      decide (v.patch = base.patch)))

/-! ## `VersionsManager` (src/common/VersionsManager.ts) -/

/-- The `VersionsManager` class: stores the component version string it was
constructed from. -/
structure VersionsManager where
  componentVersion : String
deriving DecidableEq, Repr

/-- The `VersionsManager` constructor: `if (semver.valid(componentVersion)
== null) throw new Error like Component version is not valid`, otherwise
store the string unchanged. -/
def mkVersionsManager (componentVersion : String) : Except String VersionsManager :=
  match parseSemver componentVersion with
  | none => .error "Component version is not valid"
  | some _ => .ok { componentVersion := componentVersion }

/-- `isMinorSameOrNewer (version)`: `semver.satisfies(version, caret
componentVersion)`.  `satisfies` returns `false` (rather than throwing)
when the range or the version fails to parse. -/
def VersionsManager.isMinorSameOrNewer (m : VersionsManager) (version : String) : Bool :=
  match parseSemver m.componentVersion with
  | none => false
  | some base =>
    match parseSemver version with
    | none => false
    | some v => satisfiesCaret base v

/-! ## JavaScript-object model

JavaScript objects are modelled as ordered association lists.  Property
assignment (`obj[k] = v`, and the object-spread merge) updates an existing
key in place and appends a fresh key at the end, as JS objects do. -/

/-- First value stored under key `k` (JS property read). -/
def objLookup (o : List (String × α)) (k : String) : Option α :=
  match o with
  | [] => none
  | (k', v) :: rest => if k' = k then some v else objLookup rest k

/-- JS property assignment: overwrite an existing key in place, otherwise
append at the end. -/
def insertEntry : List (String × α) → String → α → List (String × α)
  | [], k, v => [(k, v)]
  | (k', v') :: rest, k, v =>
    if k' = k then (k, v) :: rest else (k', v') :: insertEntry rest k v

/-- Modelled from the spec: `entriesToObj(pairs)` of `ServerConfigParams`
(implementation not in the visible sources) reconstructs a mapping from an
ordered sequence of key/value pairs — the inverse of the standard
entries-enumeration operation — performing no validation. -/
def entriesToObj (l : List (String × α)) : List (String × α) :=
  l.foldl (fun o kv => insertEntry o kv.1 kv.2) []

/-- Object-spread merge: all entries of `b` assigned on top of `a`
(entries of `b` win on common keys). -/
def mergeObj (a b : List (String × α)) : List (String × α) :=
  b.foldl (fun o kv => insertEntry o kv.1 kv.2) a

/-! ## Config parser (`parseServerConfig` of `ServerConfigParams`)

Only the test file of `ServerConfigParams` is in the visible sources; the
functions below are modelled from the specification, with the layer
precedence taken from the visible test assertions (command line over
environment over config file). -/

/-- The declared type of a known configuration parameter. -/
inductive ParamType where
  | number
  | boolean
  | string
deriving DecidableEq, Repr

/-- A configuration value after coercion.  `vnan` models the JavaScript
`NaN` produced by numerically parsing a non-numeric token. -/
inductive Value where
  | vnum (n : Int)
  | vnan
  | vbool (b : Bool)
  | vstr (s : String)
deriving DecidableEq, Repr

/-- A parsed configuration object. -/
abbrev Obj := List (String × Value)

/-- Modelled from the spec: the known-parameter table (`ParamTypeTable`,
implementation not in the visible sources), restricted to the parameters
exercised by the visible tests and the resolver. -/
def configParamsTypes : List (String × ParamType) :=
  [("config", .string),
   ("devMode", .boolean),
   ("debug", .boolean),
   ("relayHubAddress", .string),
   ("relayHubId", .string),
   ("versionOracleAddress", .string),
   ("url", .string),
   ("pctRelayFee", .number),
   ("baseRelayFee", .number),
   ("port", .number)]

/-- Modelled from the spec: command-line token parsing of
`parseServerConfig` (implementation not in the visible sources).  Tokens
have the form `--key=value` or `--key value`; a bare `--key` with no
following non-flag token receives the token value `true`, and stray
non-flag tokens are skipped.  Later occurrences of a key override earlier
ones at merge time. -/
def parseArgvTokens : List String → List (String × String)
  | [] => []
  | [t] =>
    match t.data with
    | '-' :: '-' :: body =>
      match splitFirst '=' body with
      | (k, some v) => [(String.mk k, String.mk v)]
      | (k, none) => [(String.mk k, "true")]
    | _ => []
  | t :: v :: rest =>
    match t.data with
    | '-' :: '-' :: body =>
      match splitFirst '=' body with
      | (k, some w) => (String.mk k, String.mk w) :: parseArgvTokens (v :: rest)
      | (k, none) =>
        if v.data.take 2 = ['-', '-'] then (String.mk k, "true") :: parseArgvTokens (v :: rest)
        else (String.mk k, v) :: parseArgvTokens rest
    | _ => parseArgvTokens (v :: rest)

/-- Modelled from the spec: the unknown-key validation of
`parseServerConfig` — the first key not present in the known-parameter
table fails with `unexpected param` followed by the key. -/
def checkKnownKeys (ks : List String) : Except String Unit :=
  match ks.find? (fun k => (objLookup configParamsTypes k).isNone) with
  | some k => .error ("unexpected param " ++ k)
  | none => .ok ()

/-- JavaScript numeric parse of a command-line token, restricted to the
integer literals the visible tests use; a non-numeric token yields `NaN`
(`Value.vnan`). -/
def jsParseNumber (s : String) : Value :=
  match s.data with
  | [] => .vnan
  | '-' :: ds =>
    if !ds.isEmpty && ds.all Char.isDigit then .vnum (-(digitsToNat ds : Int)) else .vnan
  | ds =>
    if ds.all Char.isDigit then .vnum (digitsToNat ds : Int) else .vnan

/-- Modelled from the spec: type coercion of one command-line-sourced value
per the type table — `number` via numeric parse, `boolean` via strict
`true`/`false` token recognition (anything else fails with
`Invalid boolean:` and the key), `string` passthrough. -/
def coerceValue (t : ParamType) (k v : String) : Except String Value :=
  match t with
  | .string => .ok (.vstr v)
  | .number => .ok (jsParseNumber v)
  | .boolean =>
    if v = "true" then .ok (.vbool true)
    else if v = "false" then .ok (.vbool false)
    else .error ("Invalid boolean: " ++ k)

/-- Coerce every command-line pair per the type table (all keys are known
once `checkKnownKeys` has passed; an unknown key would fail as an
unexpected param). -/
def coercePairs : List (String × String) → Except String Obj
  | [] => .ok []
  | (k, v) :: rest =>
    match objLookup configParamsTypes k with
    | none => .error ("unexpected param " ++ k)
    | some t => do
      let cv ← coerceValue t k v
      let tail ← coercePairs rest
      .ok ((k, cv) :: tail)

/-- The config-file step of `parseServerConfig`: when a `config` key is
present, read the named file (`none` = unreadable, `Except.error` =
unparsable JSON whose syntax error is surfaced) and reject unknown keys in
it; without a `config` key the file layer is empty. -/
def readConfigFile (pairs : List (String × String))
    (fs : String → Option (Except String Obj)) : Except String Obj :=
  match objLookup pairs "config" with
  | none => .ok []
  | some path =>
    match fs path with
    | none => .error "unable to read config file"
    | some (.error e) => .error e
    | some (.ok o) => (checkKnownKeys (o.map Prod.fst)).bind fun _ => .ok o

/-- Modelled from the spec: `parseServerConfig(argv, env)` of
`ServerConfigParams` (implementation not in the visible sources).  The
file system is abstracted as a map from path to `none` (unreadable),
`Except.error` (unparsable JSON, surfacing the syntax error) or a parsed
JSON object.  Steps: parse the command-line tokens and reject the first
unknown key; if a `config` key is present read and validate the named
file; coerce command-line values per the type table; merge with the
precedence shown by the visible tests — command line over `env` defaults
over config-file contents. -/
def parseServerConfig (argv : List String) (env : Obj)
    (fs : String → Option (Except String Obj)) : Except String Obj := do
  let pairs := parseArgvTokens argv
  checkKnownKeys (pairs.map Prod.fst)
  let fileObj ← readConfigFile pairs fs
  let coerced ← coercePairs pairs
  .ok (mergeObj (mergeObj fileObj env) coerced)

/-- An empty file system, for tests that never read a config file. -/
def fsEmpty : String → Option (Except String Obj) := fun _ => none

/-- The file system of the visible config-file test: path `cfg` holds the
parsed JSON object of the test file. -/
def fsTest : String → Option (Except String Obj) := fun p =>
  if p = "cfg" then
    some (.ok [("pctRelayFee", .vnum 123), ("baseRelayFee", .vnum 234), ("port", .vnum 345)])
  else none

/-! ## Config resolver (`resolveServerConfig` of `ServerConfigParams`)

Only the test file is in the visible sources; the resolver is modelled
from the specification.  The blockchain connection is abstracted as a
`Chain`: which addresses hold deployed bytecode, the version-oracle
entries, and which addresses respond to the hub-identifying call. -/

/-- The blockchain state visible to the resolver.  `oracleEntry oracleAddr
relayHubId` is the `(version, address)` pair stored by the oracle contract
at `oracleAddr` for that identifier; a missing entry yields the contract
mapping default `(empty, empty)`. -/
structure Chain where
  deployed : String → Bool
  oracleEntry : String → String → String × String
  hubResponds : String → Bool

/-- The partial configuration consumed by the resolver. -/
structure ResolverConfig where
  relayHubAddress : Option String := none
  versionOracleAddress : Option String := none
  relayHubId : Option String := none
deriving DecidableEq, Repr

/-- A syntactically well-formed address: `0x` followed by exactly 40
hexadecimal digits. -/
def wellFormedAddress (s : String) : Bool :=
  match s.data with
  | '0' :: 'x' :: rest => rest.length = 40 && rest.all (fun c => c.isDigit || (c.toLower ≥ 'a' && c.toLower ≤ 'f'))
  | _ => false

/-- Modelled from the spec: `resolveServerConfig(config, connection)` of
`ServerConfigParams` (implementation not in the visible sources; promise
rejection modelled as `Except.error`).  In order: require one of
`relayHubAddress` / `versionOracleAddress`; on the direct path validate
the address syntactically and then require deployed bytecode; on the
oracle path require `relayHubId`, require deployed bytecode at the oracle
address, then read the oracle entry — a stored value that is not a
well-formed address (including the empty default), is not deployed, or
does not respond to the hub-identifying call rejects with the one
`VersionOracle: no contract at address` message. -/
def resolveServerConfig (c : ResolverConfig) (chain : Chain) : Except String ResolverConfig :=
  match c.relayHubAddress with
  | some h =>
    if !wellFormedAddress h then .error ("invalid address: " ++ h)
    else if !chain.deployed h then .error ("RelayHub: no contract at address " ++ h)
    else .ok { c with relayHubAddress := some h }
  | none =>
    match c.versionOracleAddress with
    | none => .error "must have either relayHubAddress or versionOracleAddress"
    | some o =>
      match c.relayHubId with
      | none => .error "missing relayHubId to read from versionOracle"
      | some id =>
        if !chain.deployed o then .error ("VersionOracle: no contract at address " ++ o)
        else
          let a := (chain.oracleEntry o id).2
          if !wellFormedAddress a || !chain.deployed a || !chain.hubResponds a then
            .error ("VersionOracle: no contract at address " ++ a)
          else .ok { c with relayHubAddress := some a }

/-- The all-ones test address `addr(1)` of the visible test file. -/
def addrOne : String := "0x1111111111111111111111111111111111111111"

/-- A chain with no deployed contracts, mirroring the provider of the
visible tests before any deployment. -/
def chainEmpty : Chain :=
  { deployed := fun _ => false, oracleEntry := fun _ _ => ("", ""), hubResponds := fun _ => false }

/-- The chain of the oracle-entry witness for C3: the oracle contract is
deployed at the all-ones address and stores the non-address value of the
visible test for every identifier. -/
def chainOracleTest : Chain :=
  { deployed := fun s => s == addrOne,
    oracleEntry := fun _ _ => ("1.0", "notaddress"),
    hubResponds := fun _ => false }

/-- The file system of the unknown-file-key witness for C5. -/
def fsUnknownKey : String → Option (Except String Obj) := fun p =>
  if p = "cfgbad" then some (.ok [("asd", .vnum 123)]) else none

/-- The per-pair coercion outcome stated by the spec for one
command-line-sourced value: strict boolean token recognition, numeric
parse, string passthrough. -/
def specCliCoercion (ty : ParamType) (k v : String) : Except String Obj :=
  match ty with
  | .boolean =>
    if v = "true" then .ok [(k, .vbool true)]
    else if v = "false" then .ok [(k, .vbool false)]
    else .error ("Invalid boolean: " ++ k)
  | .number => .ok [(k, jsParseNumber v)]
  | .string => .ok [(k, .vstr v)]

/-- The compatibility relation as worded by the spec: same major
component, and minor.patch lexicographically greater than or equal to the
baseline. -/
def specSameMajorMinorPatchGE (base v : Semver) : Bool :=
  decide (v.major = base.major) &&
  (decide (base.minor < v.minor) ||
    (decide (v.minor = base.minor) && decide (base.patch ≤ v.patch)))

example : parseSemver "1.2.3" =
    some { major := 1, minor := 2, patch := 3, prerelease := [], build := [] } := by decide

example : (parseSemver "1.3.0-alpha").isSome = true := by decide

example : parseSemver "not-a-version" = none := by decide

example : VersionsManager.isMinorSameOrNewer { componentVersion := "1.2.3" } "1.2.3" = true := by decide

example : VersionsManager.isMinorSameOrNewer { componentVersion := "1.2.3" } "1.3.0" = true := by decide

example : VersionsManager.isMinorSameOrNewer { componentVersion := "1.2.3" } "2.0.0" = false := by decide

example : VersionsManager.isMinorSameOrNewer { componentVersion := "0.1.2" } "0.2.0" = false := by decide

example : parseArgvTokens ["--devMode=true", "--relayHubAddress=123"] =
    [("devMode", "true"), ("relayHubAddress", "123")] := by decide

example : parseServerConfig ["--devMode=true", "--relayHubAddress=123"] [] fsEmpty =
    .ok [("devMode", .vbool true), ("relayHubAddress", .vstr "123")] := rfl

example : parseServerConfig ["--devMode=true", "--relayHubAddress=123"]
    [("relayHubAddress", .vstr "hubFromEnv"), ("url", .vstr "urlFromEnv")] fsEmpty =
    .ok [("relayHubAddress", .vstr "123"), ("url", .vstr "urlFromEnv"), ("devMode", .vbool true)] := rfl

example : parseServerConfig ["--asdasd"] [] fsEmpty = .error "unexpected param asdasd" := rfl

example : parseServerConfig ["--debug=asd"] [] fsEmpty = .error "Invalid boolean: debug" := rfl

example : parseServerConfig ["--config=nosuchfile"] [] fsEmpty = .error "unable to read config file" := rfl

example : parseServerConfig ["--config", "cfg", "--port", "111"]
    [("baseRelayFee", .vnum 222)] fsTest =
    .ok [("pctRelayFee", .vnum 123), ("baseRelayFee", .vnum 222), ("port", .vnum 111),
         ("config", .vstr "cfg")] := rfl

example : resolveServerConfig {} chainEmpty =
    .error "must have either relayHubAddress or versionOracleAddress" := rfl

example : resolveServerConfig { relayHubAddress := some "123" } chainEmpty =
    .error "invalid address: 123" := rfl

example : resolveServerConfig { relayHubAddress := some addrOne } chainEmpty =
    .error ("RelayHub: no contract at address " ++ addrOne) := rfl

example : resolveServerConfig { versionOracleAddress := some addrOne } chainEmpty =
    .error "missing relayHubId to read from versionOracle" := rfl

example : resolveServerConfig { versionOracleAddress := some addrOne, relayHubId := some "hubid" }
    chainEmpty = .error ("VersionOracle: no contract at address " ++ addrOne) := rfl

/-! ## Association-list lemmas -/

theorem objLookup_eq_none_iff (o : List (String × α)) (k : String) :
    objLookup o k = none ↔ k ∉ o.map Prod.fst := by
  induction o with
  | nil => simp [objLookup]
  | cons kv rest ih =>
    obtain ⟨k', v⟩ := kv
    simp only [objLookup, List.map_cons, List.mem_cons, not_or]
    by_cases h : k' = k
    · subst h
      simp
    · simp only [h, if_false, ih]
      constructor
      · intro hn
        exact ⟨fun e => h e.symm, hn⟩
      · intro hn
        exact hn.2

theorem objLookup_insertEntry (o : List (String × α)) (k k' : String) (v : α) :
    objLookup (insertEntry o k v) k' = if k = k' then some v else objLookup o k' := by
  induction o with
  | nil => by_cases h : k = k' <;> simp [insertEntry, objLookup, h]
  | cons kv rest ih =>
    obtain ⟨k₀, v₀⟩ := kv
    by_cases h₀ : k₀ = k
    · subst h₀
      by_cases h : k₀ = k' <;> simp [insertEntry, objLookup, h]
    · by_cases h : k = k' <;> by_cases h' : k₀ = k' <;>
        simp_all [insertEntry, objLookup]

theorem objLookup_mergeObj_of_none (a b : List (String × α)) (k : String)
    (h : objLookup b k = none) : objLookup (mergeObj a b) k = objLookup a k := by
  induction b generalizing a with
  | nil => simp [mergeObj]
  | cons kv bs ih =>
    obtain ⟨k', v'⟩ := kv
    have hne : ¬k' = k := by
      intro e
      simp [objLookup, e] at h
    simp only [objLookup, hne, if_false] at h
    show objLookup (mergeObj (insertEntry a k' v') bs) k = _
    rw [ih _ h, objLookup_insertEntry]
    simp [hne]

theorem objLookup_mergeObj_of_some (a b : List (String × α)) (k : String) (v : α)
    (hnd : (b.map Prod.fst).Nodup) (h : objLookup b k = some v) :
    objLookup (mergeObj a b) k = some v := by
  induction b generalizing a with
  | nil => simp [objLookup] at h
  | cons kv bs ih =>
    obtain ⟨k', v'⟩ := kv
    simp only [List.map_cons, List.nodup_cons] at hnd
    show objLookup (mergeObj (insertEntry a k' v') bs) k = some v
    by_cases hk : k' = k
    · subst hk
      simp [objLookup] at h
      subst h
      have hbs : objLookup bs k' = none := (objLookup_eq_none_iff bs k').mpr hnd.1
      rw [objLookup_mergeObj_of_none _ _ _ hbs, objLookup_insertEntry]
      simp
    · simp only [objLookup, hk, if_false] at h
      exact ih _ hnd.2 h

theorem insertEntry_of_not_mem (o : List (String × α)) (k : String) (v : α)
    (h : k ∉ o.map Prod.fst) : insertEntry o k v = o ++ [(k, v)] := by
  induction o with
  | nil => rfl
  | cons kv rest ih =>
    obtain ⟨k₀, v₀⟩ := kv
    simp only [List.map_cons, List.mem_cons, not_or] at h
    have hne : ¬k₀ = k := fun e => h.1 e.symm
    simp [insertEntry, hne, ih h.2]

theorem entriesToObj_go (l acc : List (String × α))
    (h : (acc.map Prod.fst ++ l.map Prod.fst).Nodup) :
    List.foldl (fun o kv => insertEntry o kv.1 kv.2) acc l = acc ++ l := by
  induction l generalizing acc with
  | nil => simp
  | cons kv rest ih =>
    obtain ⟨k, v⟩ := kv
    have hk : k ∉ acc.map Prod.fst := by
      intro hmem
      have := (List.nodup_append.mp h).2.2
      exact this hmem (by simp)
    have step : insertEntry acc k v = acc ++ [(k, v)] := insertEntry_of_not_mem acc k v hk
    show List.foldl (fun o kv => insertEntry o kv.1 kv.2) (insertEntry acc k v) rest = _
    rw [step, ih (acc ++ [(k, v)]) (by simpa [List.append_assoc] using h)]
    simp

/-- C8: `entriesToObj` is a left inverse of the standard entries
enumeration — for every object (association list with pairwise-distinct
keys, which is what `Object.entries` produces), rebuilding the object from
its entry list yields the object back. -/
theorem entriesToObj_leftInverse (l : List (String × α))
    (h : (l.map Prod.fst).Nodup) : entriesToObj l = l := by
  have := entriesToObj_go l [] (by simpa using h)
  simpa [entriesToObj] using this

/-- Witness for C8 at the shape of the visible test. -/
theorem entriesToObj_leftInverse_witness :
    ([("x", (1 : Nat)), ("y", 2), ("z", 3)].map Prod.fst).Nodup ∧
      entriesToObj [("x", (1 : Nat)), ("y", 2), ("z", 3)] = [("x", 1), ("y", 2), ("z", 3)] :=
  ⟨by decide, entriesToObj_leftInverse _ (by decide)⟩

/-! ## Resolver theorems -/

/-- C4: `resolveServerConfig` validates in a fixed order — with neither
`relayHubAddress` nor `versionOracleAddress` set it rejects with the
`must have either` message; with a syntactically malformed
`relayHubAddress` it rejects with `invalid address:` and the value,
regardless of the chain state; with a well-formed but undeployed
`relayHubAddress` it rejects with `RelayHub: no contract at address` and
the address. -/
theorem resolveServerConfig_validation_order (c : ResolverConfig) (chain : Chain) :
    (c.relayHubAddress = none → c.versionOracleAddress = none →
      resolveServerConfig c chain = .error "must have either relayHubAddress or versionOracleAddress") ∧
    (∀ a, c.relayHubAddress = some a → wellFormedAddress a = false →
      resolveServerConfig c chain = .error ("invalid address: " ++ a)) ∧
    (∀ a, c.relayHubAddress = some a → wellFormedAddress a = true → chain.deployed a = false →
      resolveServerConfig c chain = .error ("RelayHub: no contract at address " ++ a)) := by
  refine ⟨fun h1 h2 => ?_, fun a h1 h2 => ?_, fun a h1 h2 h3 => ?_⟩
  · simp [resolveServerConfig, h1, h2]
  · simp [resolveServerConfig, h1, h2]
  · simp [resolveServerConfig, h1, h2, h3]

/-- Witness for C4: the three rejection branches at the concrete inputs of
the visible tests. -/
theorem resolveServerConfig_validation_order_witness :
    resolveServerConfig {} chainEmpty =
      .error "must have either relayHubAddress or versionOracleAddress" ∧
    resolveServerConfig { relayHubAddress := some "123" } chainEmpty =
      .error ("invalid address: " ++ "123") ∧
    resolveServerConfig { relayHubAddress := some addrOne } chainEmpty =
      .error ("RelayHub: no contract at address " ++ addrOne) :=
  ⟨(resolveServerConfig_validation_order {} chainEmpty).1 rfl rfl,
   (resolveServerConfig_validation_order { relayHubAddress := some "123" } chainEmpty).2.1
     "123" rfl (by decide),
   (resolveServerConfig_validation_order { relayHubAddress := some addrOne } chainEmpty).2.2
     addrOne rfl (by decide) rfl⟩

/-- C3: on the `versionOracleAddress` path, a missing `relayHubId` rejects
with the `missing relayHubId` message; with `relayHubId` present and the
oracle deployed, each of the three failure modes of the stored entry — a
value that is not a well-formed address (including the empty default of a
missing entry), a well-formed address with no deployed contract, and a
deployed contract that does not respond to the hub-identifying call —
rejects with the identical `VersionOracle: no contract at address`
message for the stored value. -/
theorem resolveServerConfig_oracle_path (c : ResolverConfig) (chain : Chain) (o : String)
    (hhub : c.relayHubAddress = none) (horacle : c.versionOracleAddress = some o) :
    (c.relayHubId = none →
      resolveServerConfig c chain = .error "missing relayHubId to read from versionOracle") ∧
    (∀ i a, c.relayHubId = some i → chain.deployed o = true →
      (chain.oracleEntry o i).2 = a →
      (wellFormedAddress a = false ∨ chain.deployed a = false ∨ chain.hubResponds a = false) →
      resolveServerConfig c chain = .error ("VersionOracle: no contract at address " ++ a)) := by
  constructor
  · intro hid
    simp [resolveServerConfig, hhub, horacle, hid]
  · intro i a hid hdep hentry hfail
    rcases hfail with hf | hf | hf <;>
      simp [resolveServerConfig, hhub, horacle, hid, hdep, hentry, hf]

/-- Witness for C3: the missing-identifier rejection and the
non-address-entry rejection at concrete inputs. -/
theorem resolveServerConfig_oracle_path_witness :
    resolveServerConfig { versionOracleAddress := some addrOne } chainEmpty =
      .error "missing relayHubId to read from versionOracle" ∧
    resolveServerConfig { versionOracleAddress := some addrOne, relayHubId := some "hub-invalidaddr" }
        chainOracleTest =
      .error ("VersionOracle: no contract at address " ++ "notaddress") :=
  ⟨(resolveServerConfig_oracle_path { versionOracleAddress := some addrOne } chainEmpty
      addrOne rfl rfl).1 rfl,
   (resolveServerConfig_oracle_path
      { versionOracleAddress := some addrOne, relayHubId := some "hub-invalidaddr" }
      chainOracleTest addrOne rfl rfl).2 "hub-invalidaddr" "notaddress" rfl (by decide) rfl
      (Or.inl (by decide))⟩

/-! ## VersionsManager theorems -/

/-- C7: the `VersionsManager` constructor throws `Component version is not
valid` exactly when its argument is not a valid semantic-version string,
and on every valid semantic-version string it succeeds and stores the
string unchanged. -/
theorem mkVersionsManager_valid_iff (s : String) :
    (mkVersionsManager s = .error "Component version is not valid" ↔ parseSemver s = none) ∧
    (∀ m, mkVersionsManager s = .ok m → m.componentVersion = s) := by
  cases hp : parseSemver s <;> simp [mkVersionsManager, hp]

/-- Witness for C7: a non-version string is rejected; a valid version is
stored unchanged. -/
theorem mkVersionsManager_valid_iff_witness :
    mkVersionsManager "asdasd" = .error "Component version is not valid" ∧
    VersionsManager.componentVersion { componentVersion := "1.2.3" } = "1.2.3" :=
  ⟨(mkVersionsManager_valid_iff "asdasd").1.mpr (by decide),
   (mkVersionsManager_valid_iff "1.2.3").2 { componentVersion := "1.2.3" } rfl⟩

/-- C10: `isMinorSameOrNewer` is total — it is a `Bool`-valued function on
arbitrary strings, and on every string that is not a valid semantic
version it returns `false` rather than throwing, for every manager. -/
theorem isMinorSameOrNewer_invalid_false (m : VersionsManager) (s : String)
    (h : parseSemver s = none) : m.isMinorSameOrNewer s = false := by
  unfold VersionsManager.isMinorSameOrNewer
  cases hc : parseSemver m.componentVersion <;> simp [hc, h]

/-- Witness for C10 at a concrete unparsable argument. -/
theorem isMinorSameOrNewer_invalid_false_witness :
    VersionsManager.isMinorSameOrNewer { componentVersion := "1.2.3" } "not-a-version" = false :=
  isMinorSameOrNewer_invalid_false { componentVersion := "1.2.3" } "not-a-version" (by decide)

/-! ## Config parser theorems -/

theorem except_bind_ok (a : α) (f : α → Except String β) : (Except.ok a).bind f = f a := rfl

theorem except_bind_error (e : String) (f : α → Except String β) :
    (Except.error e).bind f = .error e := rfl

theorem parseServerConfig_def (argv : List String) (env : Obj)
    (fs : String → Option (Except String Obj)) :
    parseServerConfig argv env fs =
      (checkKnownKeys ((parseArgvTokens argv).map Prod.fst)).bind (fun _ =>
        (readConfigFile (parseArgvTokens argv) fs).bind (fun fileObj =>
          (coercePairs (parseArgvTokens argv)).bind (fun coerced =>
            .ok (mergeObj (mergeObj fileObj env) coerced)))) := rfl

theorem coercePairs_cons (k v : String) (rest : List (String × String)) :
    coercePairs ((k, v) :: rest) =
      match objLookup configParamsTypes k with
      | none => .error ("unexpected param " ++ k)
      | some t =>
        (coerceValue t k v).bind fun cv =>
          (coercePairs rest).bind fun tail => .ok ((k, cv) :: tail) := rfl

theorem coercePairs_map_fst (ps : List (String × String)) (c : Obj)
    (h : coercePairs ps = .ok c) : c.map Prod.fst = ps.map Prod.fst := by
  induction ps generalizing c with
  | nil =>
    simp only [coercePairs, Except.ok.injEq] at h
    subst h
    rfl
  | cons kv rest ih =>
    obtain ⟨k, v⟩ := kv
    cases ht : objLookup configParamsTypes k with
    | none =>
      simp only [coercePairs_cons, ht] at h
      exact absurd h (by simp)
    | some t =>
      simp only [coercePairs_cons, ht] at h
      cases hcv : coerceValue t k v with
      | error e =>
        rw [hcv, except_bind_error] at h
        exact absurd h (by simp)
      | ok cv =>
        rw [hcv, except_bind_ok] at h
        cases hrest : coercePairs rest with
        | error e =>
          rw [hrest, except_bind_error] at h
          exact absurd h (by simp)
        | ok tail =>
          rw [hrest, except_bind_ok] at h
          cases h
          simp [ih tail hrest]

/-- C5: every key parsed from the command line, and every key read from
the JSON config file, that is not in the known-parameter table makes
`parseServerConfig` fail with `unexpected param` and the key (the first
such key of the offending layer gives the message). -/
theorem parseServerConfig_unexpected_param (argv : List String) (env : Obj)
    (fs : String → Option (Except String Obj)) (pairs : List (String × String))
    (hpairs : parseArgvTokens argv = pairs) :
    (∀ k, (pairs.map Prod.fst).find? (fun j => (objLookup configParamsTypes j).isNone) = some k →
      parseServerConfig argv env fs = .error ("unexpected param " ++ k)) ∧
    (∀ path fileObj k,
      (pairs.map Prod.fst).find? (fun j => (objLookup configParamsTypes j).isNone) = none →
      objLookup pairs "config" = some path →
      fs path = some (.ok fileObj) →
      (fileObj.map Prod.fst).find? (fun j => (objLookup configParamsTypes j).isNone) = some k →
      parseServerConfig argv env fs = .error ("unexpected param " ++ k)) := by
  constructor
  · intro k hk
    rw [parseServerConfig_def, hpairs]
    have hck : checkKnownKeys (pairs.map Prod.fst) = .error ("unexpected param " ++ k) := by
      simp [checkKnownKeys, hk]
    rw [hck, except_bind_error]
  · intro path fileObj k hnone hcfg hfs hk
    rw [parseServerConfig_def, hpairs]
    have h1 : checkKnownKeys (pairs.map Prod.fst) = .ok () := by
      simp [checkKnownKeys, hnone]
    have hck : checkKnownKeys (fileObj.map Prod.fst) = .error ("unexpected param " ++ k) := by
      simp [checkKnownKeys, hk]
    have h2 : readConfigFile pairs fs = .error ("unexpected param " ++ k) := by
      simp only [readConfigFile, hcfg, hfs, hck, except_bind_error]
    rw [h1, except_bind_ok, h2, except_bind_error]

/-- Witness for C5: the unknown command-line key and the unknown
config-file key of the visible tests. -/
theorem parseServerConfig_unexpected_param_witness :
    parseServerConfig ["--asdasd"] [] fsEmpty = .error ("unexpected param " ++ "asdasd") ∧
    parseServerConfig ["--config", "cfgbad"] [] fsUnknownKey =
      .error ("unexpected param " ++ "asd") :=
  ⟨(parseServerConfig_unexpected_param ["--asdasd"] [] fsEmpty [("asdasd", "true")] rfl).1
     "asdasd" (by decide),
   (parseServerConfig_unexpected_param ["--config", "cfgbad"] [] fsUnknownKey
      [("config", "cfgbad")] rfl).2 "cfgbad" [("asd", .vnum 123)] "asd" (by decide) rfl rfl
     (by decide)⟩

/-- C6: every command-line-sourced value is coerced per the declared type
of its parameter — `boolean` accepts exactly the tokens `true` and
`false` and fails with `Invalid boolean:` and the key on anything else,
`number` goes through the numeric parse, `string` passes through
unchanged. -/
theorem parseServerConfig_coercion (argv : List String)
    (fs : String → Option (Except String Obj)) (k v : String) (ty : ParamType)
    (hpairs : parseArgvTokens argv = [(k, v)])
    (hty : objLookup configParamsTypes k = some ty)
    (hk : ¬k = "config") :
    parseServerConfig argv [] fs = specCliCoercion ty k v := by
  rw [parseServerConfig_def, hpairs]
  have h1 : checkKnownKeys ([(k, v)].map Prod.fst) = .ok () := by
    simp [checkKnownKeys, List.find?, hty]
  have h2 : readConfigFile [(k, v)] fs = .ok [] := by
    simp [readConfigFile, objLookup, hk]
  rw [h1, except_bind_ok, h2, except_bind_ok]
  simp only [coercePairs_cons, hty]
  cases ty with
  | string => simp [specCliCoercion, coerceValue, coercePairs, mergeObj, insertEntry, except_bind_ok]
  | number => simp [specCliCoercion, coerceValue, coercePairs, mergeObj, insertEntry, except_bind_ok]
  | boolean =>
    by_cases hv1 : v = "true"
    · simp [specCliCoercion, coerceValue, coercePairs, mergeObj, insertEntry, except_bind_ok, hv1]
    · by_cases hv2 : v = "false" <;>
        simp [specCliCoercion, coerceValue, coercePairs, mergeObj, insertEntry,
          except_bind_ok, except_bind_error, hv1, hv2]

/-- Witness for C6: the invalid boolean token of the visible tests, a
coerced number and a passthrough string. -/
theorem parseServerConfig_coercion_witness :
    parseServerConfig ["--debug=asd"] [] fsEmpty = .error ("Invalid boolean: " ++ "debug") ∧
    parseServerConfig ["--port", "111"] [] fsEmpty = .ok [("port", .vnum 111)] ∧
    parseServerConfig ["--url=urlValue"] [] fsEmpty = .ok [("url", .vstr "urlValue")] := by
  refine ⟨?_, ?_, ?_⟩
  · rw [parseServerConfig_coercion ["--debug=asd"] fsEmpty "debug" "asd" .boolean rfl rfl
      (by decide)]
    rfl
  · rw [parseServerConfig_coercion ["--port", "111"] fsEmpty "port" "111" .number rfl rfl
      (by decide)]
    rfl
  · rw [parseServerConfig_coercion ["--url=urlValue"] fsEmpty "url" "urlValue" .string rfl rfl
      (by decide)]
    rfl

/-- Counterexample to the claim that config-file values override `env`
defaults: at the exact input of the visible test, `baseRelayFee` is in
the config file with value `234` and in `env` with value `222` and absent
from the command line, yet the returned mapping holds the `env` value
`222`, not the file value `234` — the `env` layer overrides the file
layer. -/
theorem parseServerConfig_file_overrides_env_cex :
    objLookup [("pctRelayFee", Value.vnum 123), ("baseRelayFee", Value.vnum 234),
        ("port", Value.vnum 345)] "baseRelayFee" = some (Value.vnum 234) ∧
    parseArgvTokens ["--config", "cfg", "--port", "111"] =
      [("config", "cfg"), ("port", "111")] ∧
    objLookup [(("config" : String), ("cfg" : String)), ("port", "111")] "baseRelayFee" = none ∧
    parseServerConfig ["--config", "cfg", "--port", "111"]
        [("baseRelayFee", Value.vnum 222)] fsTest =
      .ok [("pctRelayFee", .vnum 123), ("baseRelayFee", .vnum 222), ("port", .vnum 111),
           ("config", .vstr "cfg")] ∧
    ¬ objLookup [("pctRelayFee", Value.vnum 123), ("baseRelayFee", Value.vnum 222),
        ("port", Value.vnum 111), ("config", Value.vstr "cfg")] "baseRelayFee" =
      some (Value.vnum 234) :=
  ⟨rfl, rfl, rfl, rfl, by decide⟩

/-- C1 (amended): the precedence is command line over `env` defaults over
config-file contents — for every key present in both the config file and
the `env` object and absent from the command line, the `env` value
appears in the returned mapping, overriding the config-file value. -/
theorem parseServerConfig_env_overrides_file (argv : List String) (env : Obj)
    (fs : String → Option (Except String Obj)) (pairs : List (String × String))
    (path : String) (fileObj m : Obj) (k : String) (v : Value)
    (hpairs : parseArgvTokens argv = pairs)
    (hcfg : objLookup pairs "config" = some path)
    (hfs : fs path = some (.ok fileObj))
    (hnotcmd : objLookup pairs k = none)
    (hfile : (objLookup fileObj k).isSome)
    (henvnd : (env.map Prod.fst).Nodup)
    (henv : objLookup env k = some v)
    (hrun : parseServerConfig argv env fs = .ok m) :
    objLookup m k = some v := by
  rw [parseServerConfig_def, hpairs] at hrun
  cases hck : checkKnownKeys (pairs.map Prod.fst) with
  | error e =>
    rw [hck, except_bind_error] at hrun
    exact absurd hrun (by simp)
  | ok u =>
    rw [hck, except_bind_ok] at hrun
    cases hck2 : checkKnownKeys (fileObj.map Prod.fst) with
    | error e =>
      simp only [readConfigFile, hcfg, hfs, hck2, except_bind_error] at hrun
      exact absurd hrun (by simp)
    | ok u2 =>
      simp only [readConfigFile, hcfg, hfs, hck2, except_bind_ok] at hrun
      cases hco : coercePairs pairs with
      | error e =>
        rw [hco, except_bind_error] at hrun
        exact absurd hrun (by simp)
      | ok coerced =>
        rw [hco, except_bind_ok] at hrun
        cases hrun
        have hcoercedk : objLookup coerced k = none := by
          rw [objLookup_eq_none_iff, coercePairs_map_fst pairs coerced hco]
          exact (objLookup_eq_none_iff pairs k).mp hnotcmd
        rw [objLookup_mergeObj_of_none _ _ _ hcoercedk]
        exact objLookup_mergeObj_of_some _ _ _ _ henvnd henv

/-- Witness for the amended C1 at the input of the visible test:
`baseRelayFee` resolves to the `env` value `222`. -/
theorem parseServerConfig_env_overrides_file_witness :
    objLookup [("pctRelayFee", Value.vnum 123), ("baseRelayFee", Value.vnum 222),
      ("port", Value.vnum 111), ("config", Value.vstr "cfg")] "baseRelayFee" =
      some (Value.vnum 222) :=
  parseServerConfig_env_overrides_file ["--config", "cfg", "--port", "111"]
    [("baseRelayFee", Value.vnum 222)] fsTest [("config", "cfg"), ("port", "111")] "cfg"
    [("pctRelayFee", Value.vnum 123), ("baseRelayFee", Value.vnum 234), ("port", Value.vnum 345)]
    [("pctRelayFee", Value.vnum 123), ("baseRelayFee", Value.vnum 222),
      ("port", Value.vnum 111), ("config", Value.vstr "cfg")]
    "baseRelayFee" (Value.vnum 222) rfl rfl rfl rfl (by decide) (by decide) rfl rfl

/-! ## Caret-range theorems -/

theorem cmpNat_eq_lt {a b : Nat} : cmpNat a b = .lt ↔ a < b := by
  unfold cmpNat
  split_ifs <;> simp_all <;> omega

theorem cmpNat_eq_eq {a b : Nat} : cmpNat a b = .eq ↔ a = b := by
  unfold cmpNat
  split_ifs <;> simp_all <;> omega

theorem cmpNat_eq_gt {a b : Nat} : cmpNat a b = .gt ↔ b < a := by
  unfold cmpNat
  split_ifs <;> simp_all <;> omega

theorem semverCmp_release_lt (a1 a2 a3 : Nat) (ab : List String) (w : Semver) :
    semverCmp { major := a1, minor := a2, patch := a3, prerelease := [], build := ab } w = .lt ↔
      (a1 < w.major ∨ (a1 = w.major ∧ (a2 < w.minor ∨ (a2 = w.minor ∧ a3 < w.patch)))) := by
  obtain ⟨b1, b2, b3, bpre, bb⟩ := w
  simp only [semverCmp]
  cases h1 : cmpNat a1 b1 <;> cases h2 : cmpNat a2 b2 <;> cases h3 : cmpNat a3 b3 <;>
    cases bpre <;>
    simp_all [cmpNat_eq_lt, cmpNat_eq_eq, cmpNat_eq_gt, cmpPre] <;>
    omega

/-- Counterexample to C2 as stated: the manager built from `0.1.2` is
constructed from a valid version, `0.2.0` has the same major component
and a greater minor.patch, yet `isMinorSameOrNewer` returns `false` —
the caret range pins the minor component when the major is 0. -/
theorem isMinorSameOrNewer_caret_cex :
    mkVersionsManager "0.1.2" = .ok { componentVersion := "0.1.2" } ∧
    parseSemver "0.1.2" =
      some { major := 0, minor := 1, patch := 2, prerelease := [], build := [] } ∧
    parseSemver "0.2.0" =
      some { major := 0, minor := 2, patch := 0, prerelease := [], build := [] } ∧
    specSameMajorMinorPatchGE
      { major := 0, minor := 1, patch := 2, prerelease := [], build := [] }
      { major := 0, minor := 2, patch := 0, prerelease := [], build := [] } = true ∧
    VersionsManager.isMinorSameOrNewer { componentVersion := "0.1.2" } "0.2.0" = false :=
  ⟨rfl, by decide, by decide, by decide, by decide⟩

/-- C2 (amended): for a manager built from a valid version with major
component at least 1 and no prerelease identifiers, and for every valid
version argument without prerelease identifiers, `isMinorSameOrNewer`
returns true exactly when the argument has the same major component and a
minor.patch greater than or equal to the stored one; the `1.2.3`
examples of the claim are instances. -/
theorem isMinorSameOrNewer_eq_caretCompat (cv w : String) (base v : Semver)
    (m : VersionsManager)
    (hm : mkVersionsManager cv = .ok m)
    (hb : parseSemver cv = some base)
    (hv : parseSemver w = some v)
    (hmaj : 1 ≤ base.major)
    (hbpre : base.prerelease = [])
    (hvpre : v.prerelease = []) :
    m.isMinorSameOrNewer w = specSameMajorMinorPatchGE base v := by
  have hmc : m.componentVersion = cv := by
    rw [mkVersionsManager, hb] at hm
    cases hm
    rfl
  simp only [VersionsManager.isMinorSameOrNewer, hmc, hb, hv]
  obtain ⟨b1, b2, b3, bpre, bb⟩ := base
  obtain ⟨a1, a2, a3, apre, ab⟩ := v
  simp only at hmaj hbpre hvpre
  subst hbpre
  subst hvpre
  have hupper : caretUpper { major := b1, minor := b2, patch := b3, prerelease := [], build := bb } =
      { major := b1 + 1, minor := 0, patch := 0, prerelease := [], build := [] } := by
    simp [caretUpper, show 0 < b1 from hmaj]
  have h1 : satisfiesCaret
      { major := b1, minor := b2, patch := b3, prerelease := [], build := bb }
      { major := a1, minor := a2, patch := a3, prerelease := [], build := ab } = true ↔
      (a1 = b1 ∧ (b2 < a2 ∨ (a2 = b2 ∧ b3 ≤ a3))) := by
    simp [satisfiesCaret, hupper, semverCmp_release_lt]
    omega
  have h2 : specSameMajorMinorPatchGE
      { major := b1, minor := b2, patch := b3, prerelease := [], build := bb }
      { major := a1, minor := a2, patch := a3, prerelease := [], build := ab } = true ↔
      (a1 = b1 ∧ (b2 < a2 ∨ (a2 = b2 ∧ b3 ≤ a3))) := by
    simp [specSameMajorMinorPatchGE]
  have hiff := h1.trans h2.symm
  cases hsat : satisfiesCaret
      { major := b1, minor := b2, patch := b3, prerelease := [], build := bb }
      { major := a1, minor := a2, patch := a3, prerelease := [], build := ab } with
  | true => exact (hiff.mp hsat).symm
  | false =>
    cases hsp : specSameMajorMinorPatchGE
        { major := b1, minor := b2, patch := b3, prerelease := [], build := bb }
        { major := a1, minor := a2, patch := a3, prerelease := [], build := ab } with
    | false => rfl
    | true =>
      rw [hiff.mpr hsp] at hsat
      exact absurd hsat (by simp)

/-- Witness for the amended C2: the three concrete examples of the claim. -/
theorem isMinorSameOrNewer_eq_caretCompat_witness :
    VersionsManager.isMinorSameOrNewer { componentVersion := "1.2.3" } "1.2.3" = true ∧
    VersionsManager.isMinorSameOrNewer { componentVersion := "1.2.3" } "1.3.0" = true ∧
    VersionsManager.isMinorSameOrNewer { componentVersion := "1.2.3" } "2.0.0" = false := by
  refine ⟨?_, ?_, ?_⟩
  · rw [isMinorSameOrNewer_eq_caretCompat "1.2.3" "1.2.3"
      { major := 1, minor := 2, patch := 3, prerelease := [], build := [] }
      { major := 1, minor := 2, patch := 3, prerelease := [], build := [] }
      { componentVersion := "1.2.3" } rfl (by decide) (by decide) (by decide) rfl rfl]
    rfl
  · rw [isMinorSameOrNewer_eq_caretCompat "1.2.3" "1.3.0"
      { major := 1, minor := 2, patch := 3, prerelease := [], build := [] }
      { major := 1, minor := 3, patch := 0, prerelease := [], build := [] }
      { componentVersion := "1.2.3" } rfl (by decide) (by decide) (by decide) rfl rfl]
    rfl
  · rw [isMinorSameOrNewer_eq_caretCompat "1.2.3" "2.0.0"
      { major := 1, minor := 2, patch := 3, prerelease := [], build := [] }
      { major := 2, minor := 0, patch := 0, prerelease := [], build := [] }
      { componentVersion := "1.2.3" } rfl (by decide) (by decide) (by decide) rfl rfl]
    rfl

/-- C9: for a manager built from a version with major component 0, every
version with major 0 whose minor component differs from the stored one is
rejected by `isMinorSameOrNewer`, even though the major components are
equal — the caret range pins the minor component when the major is 0. -/
theorem isMinorSameOrNewer_major0_pins_minor (cv w : String) (base v : Semver)
    (m : VersionsManager)
    (hm : mkVersionsManager cv = .ok m)
    (hb : parseSemver cv = some base)
    (hv : parseSemver w = some v)
    (hb0 : base.major = 0)
    (hv0 : v.major = 0)
    (hne : ¬v.minor = base.minor) :
    m.isMinorSameOrNewer w = false := by
  have hmc : m.componentVersion = cv := by
    rw [mkVersionsManager, hb] at hm
    cases hm
    rfl
  simp only [VersionsManager.isMinorSameOrNewer, hmc, hb, hv]
  obtain ⟨b1, b2, b3, bpre, bb⟩ := base
  obtain ⟨a1, a2, a3, apre, ab⟩ := v
  simp only at hb0 hv0 hne
  subst hb0
  subst hv0
  cases apre with
  | cons p ps => simp [satisfiesCaret, hne]
  | nil =>
    rcases Nat.lt_trichotomy a2 b2 with hlt | heq | hgt
    · have hlow : semverCmp
          { major := 0, minor := a2, patch := a3, prerelease := [], build := ab }
          { major := 0, minor := b2, patch := b3, prerelease := bpre, build := bb } = .lt :=
        (semverCmp_release_lt 0 a2 a3 ab _).mpr (Or.inr ⟨rfl, Or.inl hlt⟩)
      simp [satisfiesCaret, hlow]
    · exact absurd heq hne
    · by_cases hb2 : 0 < b2
      · have hupper : caretUpper
            { major := 0, minor := b2, patch := b3, prerelease := bpre, build := bb } =
            { major := 0, minor := b2 + 1, patch := 0, prerelease := [], build := [] } := by
          simp [caretUpper, hb2]
        have hup : ¬semverCmp
            { major := 0, minor := a2, patch := a3, prerelease := [], build := ab }
            { major := 0, minor := b2 + 1, patch := 0, prerelease := [], build := [] } = .lt := by
          rw [semverCmp_release_lt]
          simp
          omega
        simp [satisfiesCaret, hupper, hup]
      · have hb2z : b2 = 0 := by omega
        subst hb2z
        have hupper : caretUpper
            { major := 0, minor := 0, patch := b3, prerelease := bpre, build := bb } =
            { major := 0, minor := 0, patch := b3 + 1, prerelease := [], build := [] } := by
          simp [caretUpper]
        have hup : ¬semverCmp
            { major := 0, minor := a2, patch := a3, prerelease := [], build := ab }
            { major := 0, minor := 0, patch := b3 + 1, prerelease := [], build := [] } = .lt := by
          rw [semverCmp_release_lt]
          simp
          omega
        simp [satisfiesCaret, hupper, hup]

/-- Witness for C9: the manager built from `0.1.2` rejects `0.2.0`. -/
theorem isMinorSameOrNewer_major0_pins_minor_witness :
    VersionsManager.isMinorSameOrNewer { componentVersion := "0.1.2" } "0.2.0" = false :=
  isMinorSameOrNewer_major0_pins_minor "0.1.2" "0.2.0"
    { major := 0, minor := 1, patch := 2, prerelease := [], build := [] }
    { major := 0, minor := 2, patch := 0, prerelease := [], build := [] }
    { componentVersion := "0.1.2" } rfl (by decide) (by decide) rfl rfl (by decide)
